import Mathlib

/-!
Shallow embedding of the mailpilot-api core (src/server.js): the identity
registry (registerUser, validateApiKey), the quota ledger (checkAndIncrement,
getUsage) and the UTC date helpers (todayStr, endOfDayUnix).

JS objects used as dictionaries are modelled as partial maps
String → Option α; the number Infinity in LIMITS is modelled as the
`none` case of `Option Nat`; JS numbers occurring in quota arithmetic are
modelled as Int (the values involved are exact integers).
-/

namespace MailPilot

/-- Account plans: the keys of the LIMITS table. -/
inductive Plan where
  | free
  | pro
deriving DecidableEq, Repr

/-- `LIMITS = { free: 10, pro: Infinity }` (src/server.js line 15);
`none` stands for Infinity. -/
def LIMITS : Plan → Option Nat
  | .free => some 10
  | .pro => none

/-- A user record as built by registerUser (src/server.js line 54). -/
structure UserRec where
  userId : String
  email : String
  plan : Plan
  createdAt : String
deriving DecidableEq, Repr

/-- Point update of a JS-object-as-map: `obj[k] = v`. -/
def setMap {α : Type} (m : String → Option α) (k : String) (v : α) :
    String → Option α :=
  fun k' => if k' = k then some v else m k'

/-- The users store: `{ byKey: { apiKey: UserRecord }, byEmail: { email: apiKey } }`
(src/server.js line 33). -/
structure Users where
  byKey : String → Option UserRec
  byEmail : String → Option String

/-- The empty users store `{ byKey: {}, byEmail: {} }`. -/
def emptyUsers : Users := ⟨fun _ => none, fun _ => none⟩

/-- Result of registerUser: `{ apiKey, user }`. -/
structure RegResult where
  apiKey : String
  user : UserRec
deriving DecidableEq, Repr

/-- `registerUser(email)` (src/server.js lines 47-59). The random inputs
(generateApiKey, uuidv4, new Date().toISOString()) are passed in as the
parameters freshKey, freshId, now; the function returns the result together
with the updated store. -/
def registerUser (email freshKey freshId now : String) (users : Users) :
    RegResult × Users :=
  let minted :=
    let user : UserRec := ⟨freshId, email, .free, now⟩
    (RegResult.mk freshKey user,
     Users.mk (setMap users.byKey freshKey user) (setMap users.byEmail email freshKey))
  match users.byEmail email with
  | some existing =>
    match users.byKey existing with
    | some user => (RegResult.mk existing user, users)
    | none => minted
  | none => minted

/-- `s.includes('@')` from JS, as a structural scan of the characters. -/
def includesAt (s : String) : Bool :=
  s.data.any (fun c => c == '@')

/-- `validateApiKey(apiKey)` (src/server.js lines 61-68). -/
def validateApiKey (users : Users) (apiKey : String) : Option UserRec :=
  if includesAt apiKey then
    match users.byEmail apiKey with
    | none => none
    | some storedKey => users.byKey storedKey
  else
    users.byKey apiKey

/-- `isLeap` per the proleptic Gregorian calendar used by ECMAScript Date. -/
def isLeap (y : Nat) : Bool :=
  (y % 4 == 0 && y % 100 != 0) || y % 400 == 0

/-- ECMAScript DayFromYear(y): days from the epoch to January 1 of year y.
JS Math.floor division is floor division; on Int with these positive
literal divisors the division below is Euclidean division, which agrees
with floor division. -/
def dayFromYear (y : Nat) : Int :=
  365 * ((y : Int) - 1970) + ((y : Int) - 1969) / 4
    - ((y : Int) - 1901) / 100 + ((y : Int) - 1601) / 400

/-- Cumulative day offset of 1-based month m within a year
(ECMAScript DayWithinYear table). -/
def monthOffset (leap : Bool) : Nat → Nat
  | 1 => 0
  | 2 => 31
  | 3 => 59 + (if leap then 1 else 0)
  | 4 => 90 + (if leap then 1 else 0)
  | 5 => 120 + (if leap then 1 else 0)
  | 6 => 151 + (if leap then 1 else 0)
  | 7 => 181 + (if leap then 1 else 0)
  | 8 => 212 + (if leap then 1 else 0)
  | 9 => 243 + (if leap then 1 else 0)
  | 10 => 273 + (if leap then 1 else 0)
  | 11 => 304 + (if leap then 1 else 0)
  | _ => 334 + (if leap then 1 else 0)

/-- ECMAScript MakeDay for a 1-based month m and day-of-month d (d may
exceed the month length: day overflow is linear, as in Date.UTC). -/
def makeDay (y m d : Nat) : Int :=
  dayFromYear y + (monthOffset (isLeap y) m : Int) + (d : Int) - 1

/-- Days in 1-based month m of year y. -/
def daysInMonth (y m : Nat) : Nat :=
  match m with
  | 2 => if isLeap y then 29 else 28
  | 4 => 30
  | 6 => 30
  | 9 => 30
  | 11 => 30
  | _ => 31

/-- A valid civil date: 1-based month in range, day within the month. -/
def ValidDate (y m d : Nat) : Prop :=
  1 ≤ m ∧ m ≤ 12 ∧ 1 ≤ d ∧ d ≤ daysInMonth y m

instance (y m d : Nat) : Decidable (ValidDate y m d) := by
  unfold ValidDate
  infer_instance

/-- The calendar successor of a date, carrying into the next month or year. -/
def nextDate (y m d : Nat) : Nat × Nat × Nat :=
  if d < daysInMonth y m then (y, m, d + 1)
  else if m < 12 then (y, m + 1, 1)
  else (y + 1, 1, 1)

/-- Zero-pad to two digits, as in an ISO date string. -/
def pad2 (n : Nat) : String :=
  if n < 10 then "0" ++ toString n else toString n

/-- Zero-pad to four digits, as in an ISO date string. -/
def pad4 (n : Nat) : String :=
  if n < 10 then "000" ++ toString n
  else if n < 100 then "00" ++ toString n
  else if n < 1000 then "0" ++ toString n
  else toString n

/-- `todayStr()` (src/server.js line 71): the current UTC date as
"YYYY-MM-DD". The current instant is modelled by its UTC civil date
(y, m, d), m 1-based. -/
def todayStr (y m d : Nat) : String :=
  pad4 y ++ "-" ++ pad2 m ++ "-" ++ pad2 d

/-- `endOfDayUnix()` (src/server.js lines 72-76): epoch seconds of
`Date.UTC(year, month, date + 1)` for the current UTC date (y, m, d). -/
def endOfDayUnix (y m d : Nat) : Int :=
  86400 * makeDay y m (d + 1)

/-- The usage key `userId:YYYY-MM-DD` (src/server.js line 79). -/
def dayKey (y m d : Nat) (user : UserRec) : String :=
  user.userId ++ ":" ++ todayStr y m d

/-- The value returned by checkAndIncrement (src/server.js line 94),
headers included. limit is -1 for Infinity, as in the source. -/
structure CheckResult where
  allowed : Bool
  used : Nat
  limit : Int
  remaining : Int
  resetAt : Int
  headerLimit : String
  headerRemaining : String
  headerReset : String
deriving Repr

/-- `checkAndIncrement(user)` (src/server.js lines 78-95), at current UTC
date (y, m, d), acting on the usage map; returns the result and the
updated map (persistUsage mirrors the in-memory map and is not separately
modelled here). -/
def checkAndIncrement (y m d : Nat) (user : UserRec)
    (usage : String → Option Nat) : CheckResult × (String → Option Nat) :=
  let key := dayKey y m d user
  let limit := LIMITS user.plan
  let resetAt := endOfDayUnix y m d
  let used := (usage key).getD 0
  let allowed : Bool :=
    match limit with
    | none => true
    | some l => used < l
  let remaining : Int :=
    max 0 (match limit with
      | none => 9999
      | some l => (l : Int) - (used : Int))
  let res : CheckResult :=
    { allowed := allowed
      used := if allowed then used + 1 else used
      limit := match limit with | none => -1 | some l => (l : Int)
      remaining := if allowed then remaining - 1 else remaining
      resetAt := resetAt
      headerLimit := match limit with | none => "unlimited" | some l => toString l
      headerRemaining := toString remaining
      headerReset := toString resetAt }
  (res, if allowed then setMap usage key (used + 1) else usage)

/-- The value returned by getUsage (src/server.js line 101). -/
structure UsageSnapshot where
  plan : Plan
  used_today : Nat
  limit : Int
  remaining : Int
  resets_at : Int
deriving Repr

/-- `getUsage(user)` (src/server.js lines 97-102): read-only snapshot. -/
def getUsage (y m d : Nat) (user : UserRec)
    (usage : String → Option Nat) : UsageSnapshot :=
  let key := dayKey y m d user
  let used := (usage key).getD 0
  let limit := LIMITS user.plan
  { plan := user.plan
    used_today := used
    limit := match limit with | none => -1 | some l => (l : Int)
    remaining :=
      match limit with
      | none => -1
      | some l => max 0 ((l : Int) - (used : Int))
    resets_at := endOfDayUnix y m d }

/-- `registerUser` together with the `persistUsers()` call it makes
(src/server.js lines 47-59; saveJSON lines 29-31; persistUsers line 38):
the in-memory store is mutated first, then saveJSON rewrites the file.
saveOk says whether that write succeeds; when it fails the exception
propagates (modelled as Except.error) after the in-memory mutation has
already happened, and the on-disk copy keeps its previous contents. -/
def registerUserPersist (email freshKey freshId now : String) (saveOk : Bool)
    (mem disk : Users) : Except Unit RegResult × Users × Users :=
  let minted :=
    let user : UserRec := ⟨freshId, email, .free, now⟩
    let mem' := Users.mk (setMap mem.byKey freshKey user)
      (setMap mem.byEmail email freshKey)
    if saveOk then (Except.ok (RegResult.mk freshKey user), mem', mem')
    else (Except.error (), mem', disk)
  match mem.byEmail email with
  | some existing =>
    match mem.byKey existing with
    | some user => (Except.ok (RegResult.mk existing user), mem, disk)
    | none => minted
  | none => minted

/-- Registry well-formedness: every api key stored in the byEmail mapping
is an opaque token, not an email-shaped string (generateApiKey returns
"mp_" followed by hex, so it never contains a "@"). -/
def KeysNotEmails (users : Users) : Prop :=
  ∀ e k, users.byEmail e = some k → includesAt k = false

/-- A concrete user record used for evaluation. -/
def cUser : UserRec :=
  ⟨"u1", "a@b.c", Plan.free, "2026-01-15T00:00:00.000Z"⟩

/-- A concrete pro-plan user record used for evaluation. -/
def pUser : UserRec := ⟨"u2", "p@b.c", Plan.pro, "2026-01-15T00:00:00.000Z"⟩

/-- The empty usage map. -/
def emptyUsage : String → Option Nat := fun _ => none

/-- C2: registering the same email a second time returns the same
credential and the same account as the first call and leaves the registry
state (both mappings) unchanged: no duplicate account and no new
credential is created, whatever fresh random values the second call draws. -/
theorem register_idempotent (email k1 i1 t1 k2 i2 t2 : String) (users : Users) :
    (registerUser email k2 i2 t2 (registerUser email k1 i1 t1 users).2).1
      = (registerUser email k1 i1 t1 users).1
    ∧ (registerUser email k2 i2 t2 (registerUser email k1 i1 t1 users).2).2
      = (registerUser email k1 i1 t1 users).2 := by
  unfold registerUser
  cases h1 : users.byEmail email with
  | none => simp [h1, setMap]
  | some existing =>
    cases h2 : users.byKey existing with
    | none => simp [h1, h2, setMap]
    | some user => simp [h1, h2]

/-- C3: after a registration with an email that contains "@" and a fresh
opaque key (no "@", as generateApiKey produces), validateApiKey resolves
the returned credential to the returned account, resolves the registration
email to that same account, and on any string that is neither a stored
credential nor a stored email it returns none rather than failing. The
well-formedness hypothesis KeysNotEmails holds for every store built from
registrations with opaque keys. -/
theorem resolve_roundtrip (email freshKey freshId now : String) (users : Users)
    (hWF : KeysNotEmails users)
    (hEmail : includesAt email = true)
    (hKey : includesAt freshKey = false) :
    validateApiKey (registerUser email freshKey freshId now users).2
        (registerUser email freshKey freshId now users).1.apiKey
      = some (registerUser email freshKey freshId now users).1.user
    ∧ validateApiKey (registerUser email freshKey freshId now users).2 email
      = some (registerUser email freshKey freshId now users).1.user
    ∧ ∀ (st : Users) (s : String), st.byKey s = none → st.byEmail s = none →
        validateApiKey st s = none := by
  refine ⟨?_, ?_, ?_⟩
  · unfold registerUser validateApiKey
    cases h1 : users.byEmail email with
    | none => simp [h1, hKey, setMap]
    | some existing =>
      cases h2 : users.byKey existing with
      | none => simp [h1, h2, hKey, setMap]
      | some user => simp [h1, h2, hWF email existing h1]
  · unfold registerUser validateApiKey
    cases h1 : users.byEmail email with
    | none => simp [h1, hEmail, setMap]
    | some existing =>
      cases h2 : users.byKey existing with
      | none => simp [h1, h2, hEmail, setMap]
      | some user => simp [h1, h2, hEmail]
  · intro st s hk he
    unfold validateApiKey
    cases h : includesAt s <;> simp [h, hk, he]

/-- C3 witness: the round-trip theorem applied to a registration of
"a@b.c" with fresh key "mp_0011" on the empty registry. -/
theorem resolve_roundtrip_witness :
    KeysNotEmails emptyUsers
    ∧ includesAt "a@b.c" = true
    ∧ includesAt "mp_0011" = false
    ∧ (validateApiKey (registerUser "a@b.c" "mp_0011" "u1" "t0" emptyUsers).2
          (registerUser "a@b.c" "mp_0011" "u1" "t0" emptyUsers).1.apiKey
        = some (registerUser "a@b.c" "mp_0011" "u1" "t0" emptyUsers).1.user
      ∧ validateApiKey (registerUser "a@b.c" "mp_0011" "u1" "t0" emptyUsers).2 "a@b.c"
        = some (registerUser "a@b.c" "mp_0011" "u1" "t0" emptyUsers).1.user
      ∧ ∀ (st : Users) (s : String), st.byKey s = none → st.byEmail s = none →
          validateApiKey st s = none) := by
  have hWF : KeysNotEmails emptyUsers := by
    intro e k h
    simp [emptyUsers] at h
  exact ⟨hWF, by decide, by decide,
    resolve_roundtrip "a@b.c" "mp_0011" "u1" "t0" emptyUsers hWF (by decide) (by decide)⟩

/-- C6 counterexample: starting from the empty registry, a registerUser
call whose persistUsers write fails raises the error only after the
in-memory mappings have been mutated: the byEmail mapping now holds the
new credential although the registration did not complete, so the
registry is not left exactly as it was before the call. -/
theorem register_not_atomic_on_save_failure :
    (registerUserPersist "a@b.c" "mp_0011" "u1" "t0" false emptyUsers emptyUsers).1
      = Except.error ()
    ∧ ((registerUserPersist "a@b.c" "mp_0011" "u1" "t0" false emptyUsers emptyUsers).2.1).byEmail "a@b.c"
      = some "mp_0011"
    ∧ emptyUsers.byEmail "a@b.c" = none := by
  refine ⟨rfl, ?_, rfl⟩
  simp [registerUserPersist, emptyUsers, setMap]

/-- C6 amended: the two in-memory mappings are always updated together —
after any registerUserPersist call the registered email points to a
credential that in turn points to an account, never one mapping without
the other — but a failed save does not roll the in-memory update back: it
only leaves the on-disk copy unchanged (likewise whenever the call
reports an error). -/
theorem register_mappings_updated_together (email freshKey freshId now : String)
    (saveOk : Bool) (mem disk : Users) :
    (∃ k u,
      ((registerUserPersist email freshKey freshId now saveOk mem disk).2.1).byEmail email
          = some k
      ∧ ((registerUserPersist email freshKey freshId now saveOk mem disk).2.1).byKey k
          = some u)
    ∧ (saveOk = false →
        (registerUserPersist email freshKey freshId now saveOk mem disk).2.2 = disk)
    ∧ ((registerUserPersist email freshKey freshId now saveOk mem disk).1
          = Except.error () →
        (registerUserPersist email freshKey freshId now saveOk mem disk).2.2 = disk) := by
  unfold registerUserPersist
  cases h1 : mem.byEmail email with
  | none =>
    cases hs : saveOk <;>
      simp [h1, hs, setMap]
  | some existing =>
    cases h2 : mem.byKey existing with
    | none =>
      cases hs : saveOk <;>
        simp [h1, h2, hs, setMap]
    | some user =>
      refine ⟨⟨existing, user, ?_, ?_⟩, ?_, ?_⟩ <;> simp [h1, h2]

/-- C6 amended witness: the amended theorem applied to a failing save on
the empty registry. -/
theorem register_mappings_updated_together_witness :
    (∃ k u,
      ((registerUserPersist "a@b.c" "mp_0011" "u1" "t0" false emptyUsers emptyUsers).2.1).byEmail "a@b.c"
          = some k
      ∧ ((registerUserPersist "a@b.c" "mp_0011" "u1" "t0" false emptyUsers emptyUsers).2.1).byKey k
          = some u)
    ∧ (registerUserPersist "a@b.c" "mp_0011" "u1" "t0" false emptyUsers emptyUsers).2.2
        = emptyUsers := by
  obtain ⟨hpair, hsave, herr⟩ :=
    register_mappings_updated_together "a@b.c" "mp_0011" "u1" "t0" false emptyUsers emptyUsers
  exact ⟨hpair, hsave rfl⟩

/-- n sequential checkAndIncrement calls for one user on one UTC day,
returning the final usage map. -/
def applyCalls (y m d : Nat) (user : UserRec) :
    Nat → (String → Option Nat) → (String → Option Nat)
  | 0, usage => usage
  | n + 1, usage => (checkAndIncrement y m d user (applyCalls y m d user n usage)).2

/-- One checkAndIncrement call moves the stored counter for the user's day
key from c to c + 1 when c is under the limit and leaves it at c otherwise. -/
theorem check_count_step (y m d : Nat) (user : UserRec)
    (usage : String → Option Nat) (l : Nat) (hp : LIMITS user.plan = some l) :
    (((checkAndIncrement y m d user usage).2) (dayKey y m d user)).getD 0
      = (if (usage (dayKey y m d user)).getD 0 < l
         then (usage (dayKey y m d user)).getD 0 + 1
         else (usage (dayKey y m d user)).getD 0) := by
  simp only [checkAndIncrement, hp]
  split
  · next h =>
    simp only [decide_eq_true_eq] at h
    simp [setMap, h]
  · next h =>
    simp only [decide_eq_true_eq] at h
    rw [if_neg h]

/-- After n sequential calls starting from a zero counter, the stored
counter for the day key is min n l. -/
theorem applyCalls_count (y m d : Nat) (user : UserRec)
    (usage : String → Option Nat) (l : Nat) (hp : LIMITS user.plan = some l)
    (h0 : (usage (dayKey y m d user)).getD 0 = 0) :
    ∀ n, ((applyCalls y m d user n usage) (dayKey y m d user)).getD 0 = min n l := by
  intro n
  induction n with
  | zero => simpa [applyCalls] using h0
  | succ n ih =>
    rw [applyCalls, check_count_step y m d user _ l hp, ih]
    rcases Nat.lt_or_ge n l with h | h
    · simp [Nat.min_eq_left (Nat.le_of_lt h), h, Nat.min_eq_left h]
    · have : ¬ min n l < l := by omega
      simp [this]
      omega

/-- C1: for a free-plan account on a day whose counter starts at 0,
each of the first 10 sequential checkAndIncrement calls is allowed, and
the 11th call is denied with remaining = 0. -/
theorem free_plan_first_ten_allowed (y m d : Nat) (user : UserRec)
    (usage : String → Option Nat) (hp : user.plan = Plan.free)
    (h0 : (usage (dayKey y m d user)).getD 0 = 0) :
    (∀ n, n < 10 →
      (checkAndIncrement y m d user (applyCalls y m d user n usage)).1.allowed = true)
    ∧ (checkAndIncrement y m d user (applyCalls y m d user 10 usage)).1.allowed = false
    ∧ (checkAndIncrement y m d user (applyCalls y m d user 10 usage)).1.remaining = 0 := by
  have hl : LIMITS user.plan = some 10 := by rw [hp]; rfl
  have hc := applyCalls_count y m d user usage 10 hl h0
  refine ⟨fun n hn => ?_, ?_, ?_⟩
  · simp only [checkAndIncrement, hl, hc n]
    simpa using Nat.lt_of_lt_of_le (by omega : min n 10 < 10) (le_refl 10)
  · simp only [checkAndIncrement, hl, hc 10]
    simp
  · simp only [checkAndIncrement, hl, hc 10]
    simp

/-- C1 witness: the quota exhaustion theorem applied to a concrete free
user starting from the empty usage map. -/
theorem free_plan_first_ten_allowed_witness :
    cUser.plan = Plan.free
    ∧ (emptyUsage (dayKey 2026 1 15 cUser)).getD 0 = 0
    ∧ ((∀ n, n < 10 →
        (checkAndIncrement 2026 1 15 cUser (applyCalls 2026 1 15 cUser n emptyUsage)).1.allowed = true)
      ∧ (checkAndIncrement 2026 1 15 cUser (applyCalls 2026 1 15 cUser 10 emptyUsage)).1.allowed = false
      ∧ (checkAndIncrement 2026 1 15 cUser (applyCalls 2026 1 15 cUser 10 emptyUsage)).1.remaining = 0) :=
  ⟨rfl, rfl, free_plan_first_ten_allowed 2026 1 15 cUser emptyUsage rfl rfl⟩

/-- C4 counterexample: a free-plan account with pre-call count 0. The
Decision reports remaining = 9 = L - (c + 1), computed after the
increment, but the X-RateLimit-Remaining header attached to the same call
carries the pre-increment value "10", not the post-increment
value required by the claim. -/
theorem header_remaining_pre_increment :
    (checkAndIncrement 2026 1 15 cUser emptyUsage).1.remaining = 9
    ∧ (checkAndIncrement 2026 1 15 cUser emptyUsage).1.headerRemaining = "10"
    ∧ (checkAndIncrement 2026 1 15 cUser emptyUsage).1.headerRemaining
        ≠ toString ((10 : Int) - (0 + 1)) := by
  refine ⟨by decide, by decide, by decide⟩

/-- C4 amended: for an allowed free-plan call with pre-call count c, the
Decision's remaining is computed after the increment, L - (c + 1), but
the X-RateLimit-Remaining header for the same call reports the
pre-increment value L - c. -/
theorem remaining_after_increment (y m d : Nat) (user : UserRec)
    (usage : String → Option Nat) (hp : user.plan = Plan.free)
    (hc : (usage (dayKey y m d user)).getD 0 < 10) :
    (checkAndIncrement y m d user usage).1.allowed = true
    ∧ (checkAndIncrement y m d user usage).1.remaining
        = 10 - (((usage (dayKey y m d user)).getD 0 : Int) + 1)
    ∧ (checkAndIncrement y m d user usage).1.headerRemaining
        = toString ((10 : Int) - ((usage (dayKey y m d user)).getD 0 : Int)) := by
  have hl : LIMITS user.plan = some 10 := by rw [hp]; rfl
  have hmax : max 0 ((10 : Int) - ((usage (dayKey y m d user)).getD 0 : Int))
      = (10 : Int) - ((usage (dayKey y m d user)).getD 0 : Int) := by omega
  refine ⟨?_, ?_, ?_⟩
  · simp only [checkAndIncrement, hl]
    simpa using hc
  · simp only [checkAndIncrement, hl]
    simp only [hc, decide_true_eq_true, if_pos, hmax]
    simp [hc]
    omega
  · simp only [checkAndIncrement, hl]
    congr 1

/-- C4 amended witness: the amended theorem applied to a free user at
pre-call count 0 on the empty usage map. -/
theorem remaining_after_increment_witness :
    cUser.plan = Plan.free
    ∧ (emptyUsage (dayKey 2026 1 15 cUser)).getD 0 < 10
    ∧ ((checkAndIncrement 2026 1 15 cUser emptyUsage).1.allowed = true
      ∧ (checkAndIncrement 2026 1 15 cUser emptyUsage).1.remaining
          = 10 - (((emptyUsage (dayKey 2026 1 15 cUser)).getD 0 : Int) + 1)
      ∧ (checkAndIncrement 2026 1 15 cUser emptyUsage).1.headerRemaining
          = toString ((10 : Int) - ((emptyUsage (dayKey 2026 1 15 cUser)).getD 0 : Int))) :=
  ⟨rfl, by decide, remaining_after_increment 2026 1 15 cUser emptyUsage rfl (by decide)⟩

/-- C5 counterexample: a pro-plan account. The call is allowed and the
limit fields use the unbounded markers (-1 and "unlimited"), but the
Decision's remaining is the finite sentinel 9998 and the
X-RateLimit-Remaining header is "9999", neither of which is the
unbounded marker. -/
theorem pro_remaining_not_marker :
    (checkAndIncrement 2026 1 15 pUser emptyUsage).1.remaining = 9998
    ∧ ((9998 : Int) = -1 → False)
    ∧ (checkAndIncrement 2026 1 15 pUser emptyUsage).1.headerRemaining = "9999"
    ∧ ("9999" = "unlimited" → False) := by
  refine ⟨by decide, by decide, by decide, by decide⟩

/-- C5 amended: a pro-plan account is always allowed whatever the current
count; the reported limit uses the unbounded marker in the Decision (-1),
in the header ("unlimited") and in the usage snapshot (-1), and the
snapshot's remaining uses the marker -1; but the Decision's remaining is
the finite sentinel 9998 (9999 - 1) and the X-RateLimit-Remaining header
carries the finite sentinel "9999". -/
theorem pro_always_allowed (y m d : Nat) (user : UserRec)
    (usage : String → Option Nat) (hp : user.plan = Plan.pro) :
    (checkAndIncrement y m d user usage).1.allowed = true
    ∧ (checkAndIncrement y m d user usage).1.limit = -1
    ∧ (checkAndIncrement y m d user usage).1.headerLimit = "unlimited"
    ∧ (getUsage y m d user usage).limit = -1
    ∧ (getUsage y m d user usage).remaining = -1
    ∧ (checkAndIncrement y m d user usage).1.remaining = 9998
    ∧ (checkAndIncrement y m d user usage).1.headerRemaining = toString (9999 : Int) := by
  have hl : LIMITS user.plan = none := by rw [hp]; rfl
  refine ⟨?_, ?_, ?_, ?_, ?_, ?_, ?_⟩ <;>
    simp [checkAndIncrement, getUsage, hl]

/-- C5 amended witness: the amended theorem applied to a concrete pro user
with 25 calls already recorded for the day. -/
theorem pro_always_allowed_witness :
    pUser.plan = Plan.pro
    ∧ ((checkAndIncrement 2026 1 15 pUser (fun _ => some 25)).1.allowed = true
      ∧ (checkAndIncrement 2026 1 15 pUser (fun _ => some 25)).1.limit = -1
      ∧ (checkAndIncrement 2026 1 15 pUser (fun _ => some 25)).1.headerLimit = "unlimited"
      ∧ (getUsage 2026 1 15 pUser (fun _ => some 25)).limit = -1
      ∧ (getUsage 2026 1 15 pUser (fun _ => some 25)).remaining = -1
      ∧ (checkAndIncrement 2026 1 15 pUser (fun _ => some 25)).1.remaining = 9998
      ∧ (checkAndIncrement 2026 1 15 pUser (fun _ => some 25)).1.headerRemaining
          = toString (9999 : Int)) :=
  ⟨rfl, pro_always_allowed 2026 1 15 pUser (fun _ => some 25) rfl⟩

/-- An operation of the quota ledger: a quota-consuming call or a
read-only peek (the getUsage snapshot). -/
inductive LedgerOp where
  | consume (user : UserRec)
  | peek (user : UserRec)

/-- Run a sequence of ledger operations on a fixed UTC day. getUsage
returns only a snapshot (its type carries no map), so a peek leaves the
usage map as it is. -/
def runOps (y m d : Nat) : List LedgerOp → (String → Option Nat) → (String → Option Nat)
  | [], usage => usage
  | .consume u :: ops, usage => runOps y m d ops (checkAndIncrement y m d u usage).2
  | .peek _ :: ops, usage => runOps y m d ops usage

/-- One checkAndIncrement call never decreases any stored counter. -/
theorem check_count_mono (y m d : Nat) (user : UserRec)
    (usage : String → Option Nat) (k : String) :
    (usage k).getD 0 ≤ (((checkAndIncrement y m d user usage).2) k).getD 0 := by
  simp only [checkAndIncrement]
  split
  · next h =>
    by_cases hk : k = dayKey y m d user
    · subst hk
      simp [setMap]
    · simp [setMap, hk]
  · exact le_refl _

/-- C7: across any sequence of consume and peek operations within one UTC
day every stored counter is monotonically non-decreasing; a single consume
never pushes a counter past the plan's finite limit (it can at most reach
max of its old value and the limit, so a counter at or under the limit
stays at or under it); and a denied consume leaves the usage map exactly
unchanged. -/
theorem counter_monotone_bounded (y m d : Nat) :
    (∀ (ops : List LedgerOp) (usage : String → Option Nat) (k : String),
        (usage k).getD 0 ≤ ((runOps y m d ops usage) k).getD 0)
    ∧ (∀ (user : UserRec) (usage : String → Option Nat) (l : Nat) (k : String),
        LIMITS user.plan = some l →
        (((checkAndIncrement y m d user usage).2) k).getD 0
          ≤ max ((usage k).getD 0) l)
    ∧ (∀ (user : UserRec) (usage : String → Option Nat),
        (checkAndIncrement y m d user usage).1.allowed = false →
        (checkAndIncrement y m d user usage).2 = usage) := by
  refine ⟨?_, ?_, ?_⟩
  · intro ops
    induction ops with
    | nil => intro usage k; exact le_refl _
    | cons op ops ih =>
      intro usage k
      cases op with
      | consume u =>
        exact le_trans (check_count_mono y m d u usage k) (ih _ k)
      | peek u => exact ih usage k
  · intro user usage l k hp
    simp only [checkAndIncrement, hp]
    split
    · next h =>
      simp only [decide_eq_true_eq] at h
      by_cases hk : k = dayKey y m d user
      · subst hk
        simp [setMap]
        omega
      · simp [setMap, hk]
    · simp
  · intro user usage h
    have ha : (match LIMITS user.plan with
        | none => true
        | some l => decide ((usage (dayKey y m d user)).getD 0 < l)) = false := by
      simpa only [checkAndIncrement] using h
    simp only [checkAndIncrement, ha]
    simp

/-- C7 witness: monotonicity over a concrete two-operation run, the bound
for the free limit 10, and the unchanged map for a denied call at
count 10. -/
theorem counter_monotone_bounded_witness :
    ((emptyUsage (dayKey 2026 1 15 cUser)).getD 0
      ≤ ((runOps 2026 1 15 [LedgerOp.consume cUser, LedgerOp.peek cUser] emptyUsage)
          (dayKey 2026 1 15 cUser)).getD 0)
    ∧ LIMITS cUser.plan = some 10
    ∧ (((checkAndIncrement 2026 1 15 cUser (fun _ => some 7)).2)
          (dayKey 2026 1 15 cUser)).getD 0
        ≤ max (((fun (_ : String) => some 7) (dayKey 2026 1 15 cUser)).getD 0) 10
    ∧ (checkAndIncrement 2026 1 15 cUser (fun _ => some 10)).1.allowed = false
    ∧ (checkAndIncrement 2026 1 15 cUser (fun _ => some 10)).2 = (fun _ => some 10) :=
  ⟨(counter_monotone_bounded 2026 1 15).1
      [LedgerOp.consume cUser, LedgerOp.peek cUser] emptyUsage (dayKey 2026 1 15 cUser),
   rfl,
   (counter_monotone_bounded 2026 1 15).2.1 cUser (fun _ => some 7) 10
      (dayKey 2026 1 15 cUser) rfl,
   by decide,
   (counter_monotone_bounded 2026 1 15).2.2 cUser (fun _ => some 10) (by decide)⟩

/-- C10: for a free-plan account and any stored counter value, including
values above the limit (as can arise after a mid-day plan downgrade), the
remaining reported by checkAndIncrement and by the getUsage snapshot is
never negative: both are clamped at 0. -/
theorem remaining_nonneg (y m d : Nat) (user : UserRec)
    (usage : String → Option Nat) (hp : user.plan = Plan.free) :
    0 ≤ (checkAndIncrement y m d user usage).1.remaining
    ∧ 0 ≤ (getUsage y m d user usage).remaining := by
  have hl : LIMITS user.plan = some 10 := by rw [hp]; rfl
  constructor
  · simp only [checkAndIncrement, hl]
    split
    · next h =>
      simp only [decide_eq_true_eq] at h
      omega
    · omega
  · simp only [getUsage, hl]
    omega

/-- C10 witness: the clamping theorem applied to a free user whose stored
counter 42 is far above the limit 10. -/
theorem remaining_nonneg_witness :
    cUser.plan = Plan.free
    ∧ (0 ≤ (checkAndIncrement 2026 1 15 cUser (fun _ => some 42)).1.remaining
      ∧ 0 ≤ (getUsage 2026 1 15 cUser (fun _ => some 42)).remaining) :=
  ⟨rfl, remaining_nonneg 2026 1 15 cUser (fun _ => some 42) rfl⟩

/-- Day overflow in MakeDay is linear: one more day of the month is one
more epoch day. -/
theorem makeDay_succ_day (y m d : Nat) :
    makeDay y m (d + 1) = makeDay y m d + 1 := by
  simp only [makeDay]
  push_cast
  ring

/-- DayFromYear advances by 365 plus one leap day from a year to the next. -/
theorem dayFromYear_succ (y : Nat) :
    dayFromYear (y + 1) = dayFromYear y + 365 + (if isLeap y then 1 else 0) := by
  have hleap : isLeap y = true ↔ ((y % 4 = 0 ∧ ¬ y % 100 = 0) ∨ y % 400 = 0) := by
    simp [isLeap, Bool.or_eq_true, Bool.and_eq_true, beq_iff_eq, bne_iff_ne]
  cases hy : isLeap y with
  | true =>
    have h := hleap.mp hy
    simp only [if_pos trivial, dayFromYear, if_true]
    push_cast
    omega
  | false =>
    have h : ¬ ((y % 4 = 0 ∧ ¬ y % 100 = 0) ∨ y % 400 = 0) := fun hc => by
      rw [← hleap] at hc
      exact absurd hy (by simp [hc])
    simp only [dayFromYear, if_false]
    push_cast
    omega

/-- The month-offset table advances by exactly the length of the month. -/
theorem monthOffset_step (y m : Nat) (hm : 1 ≤ m) (hm' : m ≤ 11) :
    monthOffset (isLeap y) (m + 1) = monthOffset (isLeap y) m + daysInMonth y m := by
  interval_cases m <;>
    cases hy : isLeap y <;>
      simp [monthOffset, daysInMonth, hy]

/-- MakeDay of the calendar successor of a valid date is one more epoch
day: the day + 1 computation carries correctly across month and year
boundaries. -/
theorem makeDay_nextDate (y m d : Nat) (hv : ValidDate y m d) :
    makeDay (nextDate y m d).1 (nextDate y m d).2.1 (nextDate y m d).2.2
      = makeDay y m d + 1 := by
  obtain ⟨hm1, hm2, hd1, hd2⟩ := hv
  unfold nextDate
  by_cases h1 : d < daysInMonth y m
  · rw [if_pos h1]
    exact makeDay_succ_day y m d
  · have hd : d = daysInMonth y m := by omega
    rw [if_neg h1]
    by_cases h2 : m < 12
    · rw [if_pos h2]
      have hstep := monthOffset_step y m hm1 (by omega)
      simp only [makeDay, hd, hstep]
      push_cast
      ring
    · have hm : m = 12 := by omega
      rw [if_neg h2]
      subst hm
      have hd31 : d = 31 := by simpa [daysInMonth] using hd
      subst hd31
      have hy := dayFromYear_succ y
      simp only [makeDay, hy]
      cases hl : isLeap y with
      | true =>
        cases hl' : isLeap (y + 1) <;>
          simp only [monthOffset, hl, hl', if_true, if_false] <;>
            push_cast <;> omega
      | false =>
        cases hl' : isLeap (y + 1) <;>
          simp only [monthOffset, hl, hl', if_true, if_false] <;>
            push_cast <;> omega

/-- C8: on any valid UTC civil date, the resetAt reported by
checkAndIncrement and the resets_at of the getUsage snapshot are the
epoch seconds of the next UTC midnight: 86400 times the epoch-day number
of the calendar successor of today, the successor carrying correctly into
the next month and year. -/
theorem reset_at_next_utc_midnight (y m d : Nat) (user : UserRec)
    (usage : String → Option Nat) (hv : ValidDate y m d) :
    (checkAndIncrement y m d user usage).1.resetAt = 86400 * (makeDay y m d + 1)
    ∧ (getUsage y m d user usage).resets_at = 86400 * (makeDay y m d + 1)
    ∧ 86400 * (makeDay y m d + 1)
        = 86400 * makeDay (nextDate y m d).1 (nextDate y m d).2.1 (nextDate y m d).2.2 := by
  have hnext := makeDay_nextDate y m d hv
  have hres : endOfDayUnix y m d = 86400 * (makeDay y m d + 1) := by
    rw [endOfDayUnix, makeDay_succ_day]
  refine ⟨?_, ?_, by rw [hnext]⟩
  · simp only [checkAndIncrement]
    exact hres
  · simpa only [getUsage] using hres

/-- C8 witness: the reset theorem applied at 2024-02-29 (the leap-day end
of a February) for a concrete user, so the successor carries into March. -/
theorem reset_at_next_utc_midnight_witness :
    ValidDate 2024 2 29
    ∧ ((checkAndIncrement 2024 2 29 cUser emptyUsage).1.resetAt
          = 86400 * (makeDay 2024 2 29 + 1)
      ∧ (getUsage 2024 2 29 cUser emptyUsage).resets_at
          = 86400 * (makeDay 2024 2 29 + 1)
      ∧ 86400 * (makeDay 2024 2 29 + 1)
          = 86400 * makeDay (nextDate 2024 2 29).1 (nextDate 2024 2 29).2.1
              (nextDate 2024 2 29).2.2) :=
  ⟨by decide, reset_at_next_utc_midnight 2024 2 29 cUser emptyUsage (by decide)⟩

end MailPilot
